import Mathlib

/-!
# Verification of the osutil archive module

Shallow embedding of `archive.go` from the `goulash/osutil` repository:
the codec-selecting `Decompressor`, the single-file tar extractor
`ReadFileFromTar`, and the directory-virtualizing reader `dirReader`.

Paths are modelled as lists of characters; the Go standard library
collaborators `path.Clean`, `path.Dir` and `path.Ext` are embedded
following their documented lexical algorithms; the tar entry scanner
(`archive/tar.Reader`) is embedded as a stream of named entries with a
terminal event (clean end marker or scan error).
-/

namespace Osutil

/-- A slash-separated path, as a list of characters. -/
abbrev Name := List Char

/-- Split a path on the slash character (empty segments preserved,
as Go's lexical path processing sees them). -/
def splitSlash (p : Name) : List Name :=
  p.foldr
    (fun c acc =>
      match acc with
      | s :: rest => if c = '/' then [] :: s :: rest else (c :: s) :: rest
      | [] => [[c]])
    [[]]

/-- One step of Go `path.Clean`'s lexical algorithm, processing one
segment against the stack of output segments (stored reversed). -/
def cleanStep (rooted : Bool) (stack : List Name) (seg : Name) : List Name :=
  if seg = [] ∨ seg = ['.'] then stack
  else if seg = ['.', '.'] then
    match stack with
    | [] => if rooted then [] else [seg]
    | top :: rest => if top = ['.', '.'] then seg :: top :: rest else rest
  else seg :: stack

/-- Join segments with slashes. -/
def joinSlash : List Name → Name
  | [] => []
  | [s] => s
  | s :: rest => s ++ '/' :: joinSlash rest

/-- Go `path.Clean`: shortest lexically-equivalent path (drop empty and
`.` segments, resolve `..` against prior segments, keep leading slash). -/
def pathCleanL (p : Name) : Name :=
  if p = [] then ['.']
  else
    let rooted := p.head? = some '/'
    let stack := (splitSlash p).foldl (cleanStep rooted) []
    let body := joinSlash stack.reverse
    if rooted then '/' :: body
    else if body = [] then ['.'] else body

/-- The part of the path up to and including the final slash
(Go `path.Split`'s first component); empty when there is no slash. -/
def dirPartL (p : Name) : Name :=
  (p.reverse.dropWhile (fun c => ¬ (c = '/'))).reverse

/-- Go `path.Dir`: all but the last element of the path, Cleaned. -/
def pathDirL (p : Name) : Name :=
  pathCleanL (dirPartL p)

/-- Helper for `pathExtL`: walk the reversed path collecting characters
until the final-element dot (returning the extension including the dot),
stopping empty at a slash or the start. -/
def extRevGo : Name → Name → Name
  | [], _ => []
  | c :: rest, acc =>
    if c = '/' then []
    else if c = '.' then '.' :: acc
    else extRevGo rest (c :: acc)

/-- Go `path.Ext`: the suffix beginning at the final dot in the final
slash-separated element; empty if there is no dot. -/
def pathExtL (p : Name) : Name :=
  extRevGo p.reverse []

/-!
## Decompressor (codec selector) — `NewDecompressor`, `Close`

`Decompressor` owns a base file and, for gzip/xz inputs, an inner codec
stream that is also an `io.Closer` (`d.closer`); bzip2 and plain tar set
no closer. External collaborators (`os.Open`, `gzip.NewReader`,
`lzma.NewReader`, `os.File.Close`, the codec's `Close`) are modelled by
oracles giving each call's outcome: `none` is success, `some e` failure
with error code `e`.
-/

/-- The inner codec stream in its role as a closer: the outcome its
`Close` call would produce. -/
structure InnerCodec where
  closeResult : Option Nat
  deriving DecidableEq

/-- The base file resource: the outcome its `Close` call would produce. -/
structure BaseFile where
  closeResult : Option Nat
  deriving DecidableEq

/-- The `Decompressor` struct: base file plus optional inner closer
(absent exactly for the pass-through and bzip2 formats). -/
structure Decompressor where
  file : BaseFile
  closer : Option InnerCodec
  deriving DecidableEq

/-- Observable outcome of `Decompressor.Close`: the returned error and
whether each resource's `Close` was actually invoked. -/
structure CloseOutcome where
  err : Option Nat
  innerCloseCalled : Bool
  fileCloseCalled : Bool
  deriving DecidableEq

/-- `Decompressor.Close`: if a closer is present, close it first and
return its error on failure *without reaching* `d.file.Close()`;
otherwise (or on inner success) return `d.file.Close()`. -/
def Decompressor.close (d : Decompressor) : CloseOutcome :=
  match d.closer with
  | some c =>
    match c.closeResult with
    | some e => { err := some e, innerCloseCalled := true, fileCloseCalled := false }
    | none => { err := d.file.closeResult, innerCloseCalled := true, fileCloseCalled := true }
  | none => { err := d.file.closeResult, innerCloseCalled := false, fileCloseCalled := true }

/-- Oracle for the external calls `NewDecompressor` makes: the outcome
of `os.Open` and of the xz/gz codec constructors (`none` = success). -/
structure Env where
  openResult : Option Nat
  xzNewResult : Option Nat
  gzNewResult : Option Nat
  deriving DecidableEq

/-- Errors `NewDecompressor` can return. -/
inductive NDErr
  | openErr (e : Nat)
  | codecErr (e : Nat)
  | unknownFormat
  deriving DecidableEq

/-- Shape of a successfully constructed Decompressor: whether an inner
closer was installed. -/
structure DecompShape where
  hasInnerCloser : Bool
  deriving DecidableEq

/-- Result of `NewDecompressor`: a decompressor or an error. -/
inductive NDRes
  | ok (s : DecompShape)
  | err (e : NDErr)
  deriving DecidableEq

/-- Resource operations `NewDecompressor` can perform, recorded in
order as a trace. -/
inductive Op
  | opOpen
  | opCloseFile
  | opNewXz
  | opNewGz
  deriving DecidableEq

/-- `NewDecompressor`: open the base file (failure returned at once),
switch on `path.Ext` of the path; `.xz`/`.gz` construct a codec whose
failure is returned (with no `file.Close()` call on that path);
`.bz2`/`.tar` install no closer; other extensions return the
unknown-format error. The trace records every resource call made. -/
def NewDecompressor (env : Env) (filepath : Name) : NDRes × List Op :=
  match env.openResult with
  | some e => (.err (.openErr e), [.opOpen])
  | none =>
    let ext := pathExtL filepath
    if ext = ".xz".data then
      match env.xzNewResult with
      | some e => (.err (.codecErr e), [.opOpen, .opNewXz])
      | none => (.ok ⟨true⟩, [.opOpen, .opNewXz])
    else if ext = ".gz".data then
      match env.gzNewResult with
      | some e => (.err (.codecErr e), [.opOpen, .opNewGz])
      | none => (.ok ⟨true⟩, [.opOpen, .opNewGz])
    else if ext = ".bz2".data then (.ok ⟨false⟩, [.opOpen])
    else if ext = ".tar".data then (.ok ⟨false⟩, [.opOpen])
    else (.err .unknownFormat, [.opOpen])

/-!
## Tar entry scanner (`archive/tar.Reader`) and the extractor
-/

/-- One tape-archive entry: a name and a body (bytes as naturals). -/
structure Entry where
  name : Name
  body : List Nat
  deriving DecidableEq

/-- The tar scanner's state: the remaining body of the current entry,
the upcoming entries, and the terminal event after the last entry
(`none` = clean end marker, i.e. `io.EOF`; `some e` = scan error `e`). -/
structure TarReader where
  curBody : List Nat
  rest : List Entry
  term : Option Nat
  deriving DecidableEq

/-- Errors a read or scan step can report (`io.EOF` is an error value
in Go, so it appears here alongside genuine scan errors). -/
inductive IOErr
  | eof
  | scanErr (e : Nat)
  deriving DecidableEq

/-- `tar.Reader.Next`: skip the remainder of the current entry and
position at the next one, returning its header name; at the end of the
entry list return `nil` for the header together with `io.EOF` (clean end
marker) or the scan error. -/
def TarReader.next (tr : TarReader) : (Option Name × Option IOErr) × TarReader :=
  match tr.rest with
  | h :: t => ((some h.name, none), ⟨h.body, t, tr.term⟩)
  | [] =>
    match tr.term with
    | none => ((none, some .eof), ⟨[], [], none⟩)
    | some e => ((none, some (.scanErr e)), ⟨[], [], some e⟩)

/-- `tar.Reader.Read` into a buffer of length `l`: yields up to `l`
bytes of the current entry's remaining body with no error; an exhausted
current entry yields `(0, io.EOF)`. -/
def TarReader.read (tr : TarReader) (l : Nat) : (List Nat × Option IOErr) × TarReader :=
  match tr.curBody with
  | [] => (([], some .eof), tr)
  | b :: bs =>
    if l = 0 then (([], none), tr)
    else (((b :: bs).take l, none), ⟨(b :: bs).drop l, tr.rest, tr.term⟩)

/-- Result of `ReadFileFromTar`: the matched entry's bytes, a scan error
surfaced unchanged, or the `file '%s' not found` error naming the target. -/
inductive ExtractRes
  | found (bytes : List Nat)
  | scanError (e : Nat)
  | notFound (file : Name)
  deriving DecidableEq

/-- `ReadFileFromTar`, instrumented: loop `tr.Next()`; on `io.EOF` break
to the not-found error, on a scan error return it, on an exact name
match return the entry's body. The second component counts the entries
obtained from the scanner (calls to `Next` that yielded an entry). -/
def ReadFileFromTarV : List Entry → Option Nat → Name → ExtractRes × Nat
  | [], none, file => (.notFound file, 0)
  | [], some e, _ => (.scanError e, 0)
  | h :: t, term, file =>
    if h.name = file then (.found h.body, 1)
    else
      let r := ReadFileFromTarV t term file
      (r.1, r.2 + 1)

/-- `ReadFileFromTar`: the extraction result alone. -/
def ReadFileFromTar (entries : List Entry) (term : Option Nat) (file : Name) : ExtractRes :=
  (ReadFileFromTarV entries term file).1

/-!
## Directory-virtualizing reader — `DirReader` / `dirReader.Read`

The source method body reads `tr.Read(b)`, a free identifier with no
package-level declaration; the struct field `dr.tr` (the scanner the
reader was constructed with) is the only well-formed referent, so the
embedding reads from `dr.tr`.
-/

/-- The `dirReader` struct: the scanner, the current entry's header name
(`none` models the nil header left behind by a failed `Next`), the
cleaned base directory, and the deferred error captured at
construction. -/
structure dirReader where
  tr : TarReader
  hdr : Option Name
  base : Name
  err : Option IOErr
  deriving DecidableEq

/-- `DirReader`: clean the directory header's name as the base, advance
the scanner once, and capture the first candidate header and any advance
error (construction itself cannot fail). -/
def DirReader (tr : TarReader) (dirHeaderName : Name) : dirReader :=
  let r := tr.next
  { tr := r.2, hdr := r.1.1, base := pathCleanL dirHeaderName, err := r.1.2 }

/-- Outcome of one `dirReader.Read` call: `(n, err)` with the bytes
produced, or the nil-header dereference `path.Dir(dr.hdr.Name)` — a
runtime panic. -/
inductive ReadRes
  | ok (data : List Nat) (err : Option IOErr)
  | nilDeref
  deriving DecidableEq

/-- The retry loop of `dirReader.Read` (entered with no deferred
error pending): check the current header's parent against the base
(dereferencing a nil header panics), return end-of-stream on a foreign
entry, return any bytes read from the current entry, and on an exhausted
entry advance the scanner — looping on success, returning the error
(with the header overwritten by `Next`'s nil result) on failure. -/
def dirReadLoop (base : Name) (l : Nat) :
    Option Name → List Nat → List Entry → Option Nat → ReadRes × dirReader
  | none, curBody, rest, term => (.nilDeref, ⟨⟨curBody, rest, term⟩, none, base, none⟩)
  | some name, curBody, rest, term =>
    if pathDirL name = base then
      match curBody with
      | b :: bs =>
        if l = 0 then
          (.ok [] none, ⟨⟨b :: bs, rest, term⟩, some name, base, none⟩)
        else
          (.ok ((b :: bs).take l) none,
            ⟨⟨(b :: bs).drop l, rest, term⟩, some name, base, none⟩)
      | [] =>
        match rest with
        | h :: t => dirReadLoop base l (some h.name) h.body t term
        | [] =>
          match term with
          | none => (.ok [] (some .eof), ⟨⟨[], [], none⟩, none, base, none⟩)
          | some e => (.ok [] (some (.scanErr e)), ⟨⟨[], [], some e⟩, none, base, none⟩)
    else (.ok [] (some .eof), ⟨⟨curBody, rest, term⟩, some name, base, none⟩)

/-- `dirReader.Read` with a buffer of length `l`: a pending deferred
error is cleared and returned first; otherwise run the read/advance
loop. -/
def dirRead (dr : dirReader) (l : Nat) : ReadRes × dirReader :=
  match dr.err with
  | some e => (.ok [] (some e), { dr with err := none })
  | none => dirReadLoop dr.base l dr.hdr dr.tr.curBody dr.tr.rest dr.tr.term

/-- The result of the `(k+1)`-th consecutive `Read` call with buffer
length `l`, starting from `dr`. -/
def iterRead : Nat → dirReader → Nat → ReadRes × dirReader
  | 0, dr, l => dirRead dr l
  | k + 1, dr, l => iterRead k (dirRead dr l).2 l

/-- Drive `dirRead` to exhaustion (up to `fuel` calls): concatenate the
data of successful error-free reads, stopping at the first read that
reports an error or panics; returns the collected bytes, the stopping
result (`none` if fuel ran out first), and the final reader state. -/
def drainDR : Nat → dirReader → Nat → List Nat × Option ReadRes × dirReader
  | 0, dr, _ => ([], none, dr)
  | fuel + 1, dr, l =>
    match dirRead dr l with
    | (.ok data none, dr') =>
      let r := drainDR fuel dr' l
      (data ++ r.1, r.2.1, r.2.2)
    | (.ok data (some e), dr') => (data, some (.ok data (some e)), dr')
    | (.nilDeref, dr') => ([], some .nilDeref, dr')

/-!
## Helper facts about the path model on the concrete names used below
-/

theorem pathClean_dir : pathCleanL ['d', 'i', 'r'] = ['d', 'i', 'r'] := by decide

theorem pathDir_dir_a : pathDirL ['d', 'i', 'r', '/', 'a'] = ['d', 'i', 'r'] := by decide

theorem pathDir_dir_sub_x :
    pathDirL ['d', 'i', 'r', '/', 's', 'u', 'b', '/', 'x'] = ['d', 'i', 'r', '/', 's', 'u', 'b'] := by
  decide

/-- A reader whose header is the nil left by a failed `Next` (and with no
deferred error) dereferences it on every read, leaving the state fixed. -/
theorem dirRead_nilHdr (dr : dirReader) (l : Nat)
    (h1 : dr.hdr = none) (h2 : dr.err = none) :
    dirRead dr l = (.nilDeref, dr) := by
  obtain ⟨⟨cb, rest, term⟩, hdr, base, err⟩ := dr
  subst h1; subst h2
  simp [dirRead, dirReadLoop]

/-- A reader positioned on an entry outside the base directory (with no
deferred error) returns `(0, io.EOF)` and leaves the state fixed. -/
theorem dirRead_foreign (dr : dirReader) (l : Nat) (name : Name)
    (h1 : dr.hdr = some name) (h2 : dr.err = none)
    (h3 : ¬ pathDirL name = dr.base) :
    dirRead dr l = (.ok [] (some .eof), dr) := by
  obtain ⟨⟨cb, rest, term⟩, hdr, base, err⟩ := dr
  subst h1; subst h2
  cases cb <;> cases rest <;> cases term <;> simp_all [dirRead, dirReadLoop]

/-!
## Claim theorems
-/

/-- C1 counterexample: a Decompressor whose inner codec close fails with
error 1 returns that error from `Close`, but `d.file.Close()` is never
reached — the base resource is *not* released, contrary to the claim. -/
theorem close_innerFail_cex :
    (Decompressor.close ⟨⟨none⟩, some ⟨some 1⟩⟩).err = some 1 ∧
    (Decompressor.close ⟨⟨none⟩, some ⟨some 1⟩⟩).fileCloseCalled = false := by
  decide

/-- C1 (amended): for every Decompressor whose inner codec transform is
present, when the inner transform's close fails `Close` returns the
inner close error and does *not* release the base resource: the early
return skips `d.file.Close()`. -/
theorem close_innerFail_skips_base (d : Decompressor) (c : InnerCodec) (e : Nat)
    (hc : d.closer = some c) (he : c.closeResult = some e) :
    (Decompressor.close d).err = some e ∧
    (Decompressor.close d).innerCloseCalled = true ∧
    (Decompressor.close d).fileCloseCalled = false := by
  simp [Decompressor.close, hc, he]

/-- C1 witness: the amended theorem at a concrete Decompressor whose
inner close fails with error 2. -/
theorem close_innerFail_skips_base_witness :
    (Decompressor.close ⟨⟨none⟩, some ⟨some 2⟩⟩).err = some 2 ∧
    (Decompressor.close ⟨⟨none⟩, some ⟨some 2⟩⟩).innerCloseCalled = true ∧
    (Decompressor.close ⟨⟨none⟩, some ⟨some 2⟩⟩).fileCloseCalled = false :=
  close_innerFail_skips_base ⟨⟨none⟩, some ⟨some 2⟩⟩ ⟨some 2⟩ 2 rfl rfl

/-- C2 counterexample: opening `a.gz` succeeds but the gzip constructor
fails with error 7; `NewDecompressor` returns the construction error yet
its trace contains no close of the base file — the base resource is
*not* released before returning, contrary to the claim. -/
theorem newDecompressor_codecFail_cex :
    (NewDecompressor ⟨none, none, some 7⟩ "a.gz".data).1 = .err (.codecErr 7) ∧
    Op.opCloseFile ∉ (NewDecompressor ⟨none, none, some 7⟩ "a.gz".data).2 := by
  decide

/-- C2 (amended): for every path whose base resource opens successfully
but whose decompression transform construction fails (`.xz` or `.gz`),
`NewDecompressor` returns the construction error but the base resource
is *not* released before the function returns: no `file.Close()` call
appears in its trace. -/
theorem newDecompressor_codecFail_leaks (env : Env) (fp : Name) (e : Nat)
    (ho : env.openResult = none)
    (hf : (pathExtL fp = ".xz".data ∧ env.xzNewResult = some e) ∨
          (pathExtL fp = ".gz".data ∧ env.gzNewResult = some e)) :
    (NewDecompressor env fp).1 = .err (.codecErr e) ∧
    Op.opCloseFile ∉ (NewDecompressor env fp).2 := by
  rcases hf with ⟨hext, hcf⟩ | ⟨hext, hcf⟩ <;>
    simp [NewDecompressor, ho, hext, hcf]

/-- C2 witness: the amended theorem at the concrete path `a.xz` with an
xz constructor failing with error 3. -/
theorem newDecompressor_codecFail_leaks_witness :
    (NewDecompressor ⟨none, some 3, none⟩ "a.xz".data).1 = .err (.codecErr 3) ∧
    Op.opCloseFile ∉ (NewDecompressor ⟨none, some 3, none⟩ "a.xz".data).2 :=
  newDecompressor_codecFail_leaks ⟨none, some 3, none⟩ "a.xz".data 3 rfl
    (.inl ⟨by decide, rfl⟩)

/-- C3 (code bug, evaluated): on an archive whose scan fails after the
empty-bodied entry `dir/a`, the first read of the reader (opened on
`dir`) returns the scan error immediately, and the *second* read
dereferences the nil header `Next` left behind — a runtime panic, not
the claimed well-defined end-of-stream or error result. -/
theorem dirRead_advanceErr_then_nilDeref :
    (dirRead (DirReader ⟨[], [⟨"dir/a".data, []⟩], some 5⟩ "dir".data) 3).1
      = .ok [] (some (.scanErr 5)) ∧
    (dirRead (dirRead (DirReader ⟨[], [⟨"dir/a".data, []⟩], some 5⟩ "dir".data) 3).2 3).1
      = .nilDeref := by
  decide

/-- C4: for an archive holding `dir/a` (4 bytes), `dir/b` (6 bytes) and
`other/c` in that order, draining the reader opened on `dir` (buffer 3)
yields exactly the 10 bytes of `a`'s body followed by `b`'s, then a
clean end-of-stream; the final state still holds `other/c`'s body
unconsumed, so none of its bytes reached the output. -/
theorem dirReader_concat_two_entries
    (a1 a2 a3 a4 b1 b2 b3 b4 b5 b6 : Nat) (c : List Nat) :
    drainDR 20
      (DirReader
        ⟨[], [⟨"dir/a".data, [a1, a2, a3, a4]⟩,
              ⟨"dir/b".data, [b1, b2, b3, b4, b5, b6]⟩,
              ⟨"other/c".data, c⟩], none⟩
        "dir".data) 3
      = ([a1, a2, a3, a4, b1, b2, b3, b4, b5, b6],
         some (.ok [] (some .eof)),
         ⟨⟨c, [], none⟩, some "other/c".data, "dir".data, none⟩) := by
  cases c <;> rfl

/-- C5: extracting a name that first matches at entry `k = pre.length + 1`
of the archive returns exactly that entry's stored body, visiting `k`
entries — the result is independent of every later entry and of the
stream's terminal event. -/
theorem readFileFromTar_finds_at_k (pre suf : List Entry) (h : Entry)
    (term : Option Nat) (file : Name)
    (hpre : ∀ e ∈ pre, e.name ≠ file) (hh : h.name = file) :
    ReadFileFromTarV (pre ++ h :: suf) term file = (.found h.body, pre.length + 1) := by
  induction pre with
  | nil => simp [ReadFileFromTarV, hh]
  | cons p ps ih =>
    have hp : p.name ≠ file := hpre p (by simp)
    have ihr := ih (fun e he => hpre e (by simp [he]))
    simp [ReadFileFromTarV, hp, ihr]

/-- C5 witness: extracting `b` from the archive `[a, b, c]` returns
`b`'s body having visited two entries. -/
theorem readFileFromTar_finds_at_k_witness :
    ReadFileFromTarV ([⟨"a".data, [1]⟩] ++ ⟨"b".data, [2, 3]⟩ :: [⟨"c".data, [4]⟩])
        none "b".data
      = (.found [2, 3], 2) :=
  readFileFromTar_finds_at_k [⟨"a".data, [1]⟩] [⟨"c".data, [4]⟩] ⟨"b".data, [2, 3]⟩
    none "b".data (by decide) (by decide)

/-- C6: when the initial scanner advance at construction fails with a
scan error, construction still succeeds (it is total); the first read
returns exactly that error and clears the deferred state, and no later
read — with any buffer size — ever returns it again (each instead hits
the nil header left by the failed advance). -/
theorem dirReader_deferred_err_once (tr : TarReader) (e : Nat) (dname : Name) (l : Nat)
    (hrest : tr.rest = []) (hterm : tr.term = some e) :
    (dirRead (DirReader tr dname) l).1 = .ok [] (some (.scanErr e)) ∧
    (dirRead (DirReader tr dname) l).2.err = none ∧
    ∀ k l2, (iterRead k (dirRead (DirReader tr dname) l).2 l2).1 = .nilDeref := by
  obtain ⟨cb, rest, term⟩ := tr
  subst hrest; subst hterm
  have hstate : (dirRead (DirReader ⟨cb, [], some e⟩ dname) l).2
      = ⟨⟨[], [], some e⟩, none, pathCleanL dname, none⟩ := by
    simp [DirReader, TarReader.next, dirRead]
  refine ⟨by simp [DirReader, TarReader.next, dirRead], by rw [hstate], ?_⟩
  intro k l2
  rw [hstate]
  induction k with
  | zero => simp [iterRead, dirRead_nilHdr]
  | succ k ihk =>
    have hfix := dirRead_nilHdr ⟨⟨[], [], some e⟩, none, pathCleanL dname, none⟩ l2 rfl rfl
    simpa [iterRead, hfix] using ihk

/-- C6 witness: the theorem at a concrete scanner whose advance fails
with error 9, buffer 3. -/
theorem dirReader_deferred_err_once_witness :
    (dirRead (DirReader ⟨[7, 7], [], some 9⟩ "dir".data) 3).1
      = .ok [] (some (.scanErr 9)) ∧
    (dirRead (DirReader ⟨[7, 7], [], some 9⟩ "dir".data) 3).2.err = none ∧
    ∀ k l2, (iterRead k (dirRead (DirReader ⟨[7, 7], [], some 9⟩ "dir".data) 3).2 l2).1
      = .nilDeref :=
  dirReader_deferred_err_once ⟨[7, 7], [], some 9⟩ 9 "dir".data 3 rfl rfl

/-- C7: for an archive holding `dir/a` then `dir/sub/x`, draining the
reader opened on `dir` yields exactly `a`'s body and a clean
end-of-stream: the stream terminates at `dir/sub/x`, whose immediate
parent `dir/sub` differs from the base `dir`, and the nested entry's
body is left unconsumed. -/
theorem dirReader_stops_at_nested_subdir (a x : List Nat) :
    drainDR 3
      (DirReader ⟨[], [⟨"dir/a".data, a⟩, ⟨"dir/sub/x".data, x⟩], none⟩ "dir".data)
      (a.length + 1)
      = (a, some (.ok [] (some .eof)),
         ⟨⟨x, [], none⟩, some "dir/sub/x".data, "dir".data, none⟩) := by
  cases a with
  | nil => cases x <;> rfl
  | cons a0 as =>
    have htake : (a0 :: as).take (as.length + 1 + 1) = a0 :: as :=
      List.take_of_length_le (by simp)
    have hdrop : (a0 :: as).drop (as.length + 1 + 1) = [] :=
      List.drop_eq_nil_of_le (by simp)
    cases x <;>
      simp [drainDR, dirRead, dirReadLoop, DirReader, TarReader.next,
        pathClean_dir, pathDir_dir_a, pathDir_dir_sub_x, htake, hdrop]

/-- C8: a reader positioned (with no deferred error) on an entry whose
parent lies outside the base directory returns end-of-stream with
unchanged state on every read, with any buffer size — so once a read
has returned end-of-stream for that reason, all later reads return
end-of-stream with no error, indefinitely. -/
theorem dirReader_exhausted_terminal (dr : dirReader) (name : Name)
    (h1 : dr.hdr = some name) (h2 : dr.err = none)
    (h3 : ¬ pathDirL name = dr.base) :
    (∀ l, dirRead dr l = (.ok [] (some .eof), dr)) ∧
    ∀ k l, (iterRead k dr l).1 = .ok [] (some .eof) := by
  have hfix : ∀ l, dirRead dr l = (.ok [] (some .eof), dr) :=
    fun l => dirRead_foreign dr l name h1 h2 h3
  refine ⟨hfix, ?_⟩
  intro k l
  induction k with
  | zero => simp [iterRead, hfix l]
  | succ k ihk => simpa [iterRead, hfix l] using ihk

/-- C8 witness: the theorem at the concrete terminal state reached after
virtualizing `dir` in the C7 archive (current entry `dir/sub/x`). -/
theorem dirReader_exhausted_terminal_witness :
    (∀ l, dirRead ⟨⟨[42], [], none⟩, some "dir/sub/x".data, "dir".data, none⟩ l
      = (.ok [] (some .eof), ⟨⟨[42], [], none⟩, some "dir/sub/x".data, "dir".data, none⟩)) ∧
    ∀ k l, (iterRead k ⟨⟨[42], [], none⟩, some "dir/sub/x".data, "dir".data, none⟩ l).1
      = .ok [] (some .eof) :=
  dirReader_exhausted_terminal ⟨⟨[42], [], none⟩, some "dir/sub/x".data, "dir".data, none⟩
    "dir/sub/x".data rfl rfl (by decide)

/-- C9: extracting a name that matches no entry of the archive scans all
`N` entries to the clean end marker and fails with the file-not-found
error naming the target — not with a scan error. -/
theorem readFileFromTar_notFound (entries : List Entry) (file : Name)
    (h : ∀ e ∈ entries, e.name ≠ file) :
    ReadFileFromTarV entries none file = (.notFound file, entries.length) := by
  induction entries with
  | nil => simp [ReadFileFromTarV]
  | cons p ps ih =>
    have hp : p.name ≠ file := h p (by simp)
    have ihr := ih (fun e he => h e (by simp [he]))
    simp [ReadFileFromTarV, hp, ihr]

/-- C9 witness: extracting `z` from the two-entry archive `[a, b]`
visits both entries and returns the not-found error naming `z`. -/
theorem readFileFromTar_notFound_witness :
    ReadFileFromTarV [⟨"a".data, [1]⟩, ⟨"b".data, [2, 3]⟩] none "z".data
      = (.notFound "z".data, 2) :=
  readFileFromTar_notFound [⟨"a".data, [1]⟩, ⟨"b".data, [2, 3]⟩] "z".data (by decide)

end Osutil
